import Mathlib

/-!
Verification of `src/inventory_system.py`, an inventory management module
keeping a process-wide mapping `stock_data : Dict[str, float]` with
operations `add_item`, `remove_item`, `get_qty`, `save_data`, `load_data`
and `check_low_items`.

Embedding choices:
* The store is an association list `List (String × ℚ)` in insertion order,
  mirroring the iteration order of a Python `dict`.  Assignment updates the
  entry in place (keeping its position) or appends; deletion removes the
  entry.  Quantities are modelled as rationals (exact arithmetic standing
  in for Python floats; `float(q)` is the identity).
* Each mutating operation is a state transformer `Store → ... → Store × Option Err`:
  the returned store is the global `stock_data` after the call, and the
  `Option Err` is the raised exception, if any.  This keeps visible exactly
  which store a failing call leaves behind (important for `load_data`,
  which clears the store before validating the values).
* Parsed JSON is modelled by the inductive `Json`.  Keys of a parsed JSON
  object are always Python `str`, which the `String` key type of `Json.obj`
  captures, so the `isinstance(key, str)` check in `load_data` is always
  true.  Python booleans satisfy `isinstance(value, (int, float))` (bool is
  a subclass of int), which `isNumericPy` reflects.
* Dynamic `isinstance` checks on arguments (`item` a str, `qty` a number)
  are carried by the Lean types of the arguments; the value-level checks
  (`item.strip()` nonempty, sign conditions) are translated literally.
-/

namespace Inventory

/-- Errors raised by the inventory operations, mirroring the `ValueError` /
`KeyError` messages of the Python source.  `notFound` carries the missing
item and `insufficientStock` carries the available and requested amounts
that the Python message interpolates. -/
inductive Err where
  | invalidArgument (msg : String)
  | notFound (item : String)
  | insufficientStock (available requested : ℚ)
  | invalidFormat (msg : String)
deriving DecidableEq, Repr

/-- The in-memory inventory: `stock_data`, a Python dict from item name to
quantity, in insertion order. -/
abbrev Store := List (String × ℚ)

/-- Dictionary read, `stock_data.get(k)` / `stock_data[k]`: the value at the
first (in a real dict, only) entry whose key equals `k`. -/
def dictGet (s : Store) (k : String) : Option ℚ :=
  match s with
  | [] => none
  | (k', v) :: rest => if k' = k then some v else dictGet rest k

/-- Dictionary assignment `stock_data[k] = v`: update the entry in place if
present (keeping its position, as a Python dict does), else append. -/
def dictAssign (s : Store) (k : String) (v : ℚ) : Store :=
  match s with
  | [] => [(k, v)]
  | (k', v') :: rest =>
    if k' = k then (k, v) :: rest else (k', v') :: dictAssign rest k v

/-- Dictionary deletion `del stock_data[k]`: drop the entries keyed `k`
(a real dict holds at most one). -/
def dictDel (s : Store) (k : String) : Store :=
  match s with
  | [] => []
  | (k', v') :: rest =>
    if k' = k then dictDel rest k else (k', v') :: dictDel rest k

/-- Python `not item.strip()`: the name is empty or entirely whitespace, so
stripping leading and trailing whitespace leaves the empty string. -/
def isBlank (s : String) : Bool := s.data.all Char.isWhitespace

/-- Source `add_item(item, qty)` (lines 24-46): validates that `item` is
non-blank after stripping and `qty` is non-negative, then executes
`stock_data[item] = stock_data.get(item, 0.0) + float(qty)`.  The optional
`logs` side channel has no effect on the store and is omitted. -/
def add_item (s : Store) (item : String) (qty : ℚ) : Store × Option Err :=
  if isBlank item then
    (s, some (Err.invalidArgument "Item must be a non-empty string."))
  else if qty < 0 then
    (s, some (Err.invalidArgument "Quantity must be a non-negative number."))
  else
    (dictAssign s item ((dictGet s item).getD 0 + qty), none)

/-- Source `remove_item(item, qty)` (lines 49-80): validates the arguments,
requires membership, computes `new_qty = stock_data[item] - float(qty)`,
raises on `new_qty < 0`, deletes the entry at exactly zero and updates it
otherwise. -/
def remove_item (s : Store) (item : String) (qty : ℚ) : Store × Option Err :=
  if isBlank item then
    (s, some (Err.invalidArgument "Item must be a non-empty string."))
  else if qty ≤ 0 then
    (s, some (Err.invalidArgument "Quantity must be a positive number."))
  else
    match dictGet s item with
    | none => (s, some (Err.notFound item))
    | some q =>
      let newQty := q - qty
      if newQty < 0 then
        (s, some (Err.insufficientStock q qty))
      else if newQty = 0 then
        (dictDel s item, none)
      else
        (dictAssign s item newQty, none)

/-- Source `get_qty(item)` (lines 83-96): `return float(stock_data[item])`,
raising `KeyError` when the item is absent. -/
def get_qty (s : Store) (item : String) : Except Err ℚ :=
  match dictGet s item with
  | some q => Except.ok q
  | none => Except.error (Err.notFound item)

/-- A parsed JSON value, as `json.load` returns it.  Object keys are
`String` because Python JSON object keys are always `str`. -/
inductive Json where
  | null
  | bool (b : Bool)
  | num (q : ℚ)
  | str (t : String)
  | arr (elems : List Json)
  | obj (entries : List (String × Json))

/-- Python `isinstance(value, (int, float))` on a parsed JSON value.  A
Python bool is a subclass of int, so JSON `true` / `false` pass the check. -/
def isNumericPy : Json → Bool
  | Json.num _ => true
  | Json.bool _ => true
  | _ => false

/-- Python `float(value)` on a value that passed `isNumericPy` (booleans
coerce to 1.0 / 0.0); other shapes never reach the coercion and map to 0. -/
def jsonToFloat : Json → ℚ
  | Json.num q => q
  | Json.bool b => if b then 1 else 0
  | _ => 0

/-- Whether a parsed JSON value is a JSON object (`isinstance(data, dict)`). -/
def isObj : Json → Bool
  | Json.obj _ => true
  | _ => false

/-- Spec-side notion of a numeric value, following the wording that `load`
rejects any value that is not numeric: in JSON terms, a numeric value is a
JSON number.  To be compared against the `isNumericPy` check of the code,
which a JSON boolean also passes. -/
def specNumeric : Json → Bool
  | Json.num _ => true
  | _ => false

/-- The `for key, value in data.items()` loop of `load_data` (lines
128-131), run after `stock_data.clear()`: `acc` is the store built so far;
the first non-numeric value raises, leaving the partially rebuilt store in
place.  The `isinstance(key, str)` half of the check is always true for a
parsed JSON object. -/
def loadEntries (acc : Store) : List (String × Json) → Store × Option Err
  | [] => (acc, none)
  | (k, v) :: rest =>
    if isNumericPy v then
      loadEntries (dictAssign acc k (jsonToFloat v)) rest
    else
      (acc, some (Err.invalidFormat "Inventory must map strings to numeric values."))

/-- Source `load_data` (lines 111-133) applied to the parsed JSON contents
of the file: reject a non-object before touching the store, otherwise
clear `stock_data` and replay the entries through `loadEntries`. -/
def load_data (prior : Store) (data : Json) : Store × Option Err :=
  match data with
  | Json.obj entries => loadEntries [] entries
  | _ => (prior, some (Err.invalidFormat "Inventory file must contain a JSON object."))

/-- Source `save_data` (lines 99-108): serialize `stock_data` as a JSON
object mapping each item name to its quantity, in iteration order. -/
def save_data (s : Store) : Json :=
  Json.obj (s.map fun p => (p.1, Json.num p.2))

/-- Source `check_low_items(threshold)` (lines 143-159): reject a negative
threshold, else return the names of the entries with quantity strictly
below the threshold, in iteration order. -/
def check_low_items (s : Store) (threshold : ℚ) : Except Err (List String) :=
  if threshold < 0 then
    Except.error (Err.invalidArgument "Threshold must be a non-negative number.")
  else
    Except.ok ((s.filter fun p => p.2 < threshold).map Prod.fst)

/-- States reachable from the empty store by successful `add_item`,
`remove_item` and `load_data` calls, the loaded files restricted by `P`
(instantiate `P` with the always-true predicate for plain reachability). -/
inductive ReachableP (P : Json → Prop) : Store → Prop where
  | empty : ReachableP P []
  | addStep (s s' : Store) (item : String) (qty : ℚ) :
      ReachableP P s → add_item s item qty = (s', none) → ReachableP P s'
  | removeStep (s s' : Store) (item : String) (qty : ℚ) :
      ReachableP P s → remove_item s item qty = (s', none) → ReachableP P s'
  | loadStep (s s' : Store) (j : Json) :
      ReachableP P s → P j → load_data s j = (s', none) → ReachableP P s'

/-- States reachable by arbitrary successful operations. -/
def Reachable : Store → Prop := ReachableP fun _ => True

/-- Every stored quantity is strictly positive. -/
def allPosB (s : Store) : Bool := s.all fun kv => 0 < kv.2

/-- Every stored quantity is non-negative. -/
def AllNonneg (s : Store) : Prop := ∀ kv ∈ s, 0 ≤ kv.2

/-- Files whose parsed contents, when an object, carry only values that
coerce to non-negative floats. -/
def NonnegFile (j : Json) : Prop :=
  ∀ es, j = Json.obj es → ∀ kv ∈ es, 0 ≤ jsonToFloat kv.2

end Inventory

namespace Inventory

/-! Basic lemmas about the dictionary primitives. -/

theorem dictGet_assign_self (s : Store) (k : String) (v : ℚ) :
    dictGet (dictAssign s k v) k = some v := by
  induction s with
  | nil => simp [dictGet, dictAssign]
  | cons hd tl ih =>
    obtain ⟨k', v'⟩ := hd
    by_cases h : k' = k <;> simp [dictGet, dictAssign, h, ih]

theorem dictGet_assign_ne (s : Store) (a b : String) (v : ℚ) (hab : a ≠ b) :
    dictGet (dictAssign s a v) b = dictGet s b := by
  induction s with
  | nil => simp [dictGet, dictAssign, hab]
  | cons hd tl ih =>
    obtain ⟨k', v'⟩ := hd
    by_cases h : k' = a
    · subst h
      simp [dictGet, dictAssign, hab]
    · simp [dictGet, dictAssign, h, ih]

theorem dictGet_del_self (s : Store) (k : String) :
    dictGet (dictDel s k) k = none := by
  induction s with
  | nil => simp [dictGet, dictDel]
  | cons hd tl ih =>
    obtain ⟨k', v'⟩ := hd
    by_cases h : k' = k <;> simp [dictGet, dictDel, h, ih]

theorem dictGet_del_ne (s : Store) (a b : String) (hab : a ≠ b) :
    dictGet (dictDel s a) b = dictGet s b := by
  induction s with
  | nil => simp [dictDel]
  | cons hd tl ih =>
    obtain ⟨k', v'⟩ := hd
    by_cases h : k' = a
    · subst h
      simp [dictGet, dictDel, hab, ih]
    · simp [dictGet, dictDel, h, ih]

theorem dictGet_mem (s : Store) (k : String) (v : ℚ) (h : dictGet s k = some v) :
    (k, v) ∈ s := by
  induction s with
  | nil => simp [dictGet] at h
  | cons hd tl ih =>
    obtain ⟨k', v'⟩ := hd
    by_cases hk : k' = k
    · subst hk
      simp [dictGet] at h
      simp [h]
    · simp [dictGet, hk] at h
      exact List.mem_cons_of_mem _ (ih h)

theorem mem_dictAssign (s : Store) (k : String) (v : ℚ) (kv : String × ℚ)
    (h : kv ∈ dictAssign s k v) : kv = (k, v) ∨ kv ∈ s := by
  induction s with
  | nil => simpa [dictAssign] using h
  | cons hd tl ih =>
    obtain ⟨k', v'⟩ := hd
    by_cases hk : k' = k
    · simp [dictAssign, hk] at h
      rcases h with h | h
      · exact Or.inl h
      · exact Or.inr (List.mem_cons_of_mem _ h)
    · simp [dictAssign, hk] at h
      rcases h with h | h
      · exact Or.inr (by simp [h])
      · rcases ih h with h' | h'
        · exact Or.inl h'
        · exact Or.inr (List.mem_cons_of_mem _ h')

theorem mem_dictDel (s : Store) (k : String) (kv : String × ℚ)
    (h : kv ∈ dictDel s k) : kv ∈ s := by
  induction s with
  | nil => simp [dictDel] at h
  | cons hd tl ih =>
    obtain ⟨k', v'⟩ := hd
    by_cases hk : k' = k
    · simp [dictDel, hk] at h
      exact List.mem_cons_of_mem _ (ih h)
    · simp [dictDel, hk] at h
      rcases h with h | h
      · simp [h]
      · exact List.mem_cons_of_mem _ (ih h)

theorem dictAssign_of_notMem (s : Store) (k : String) (v : ℚ)
    (h : ∀ p ∈ s, p.1 ≠ k) : dictAssign s k v = s ++ [(k, v)] := by
  induction s with
  | nil => simp [dictAssign]
  | cons hd tl ih =>
    obtain ⟨k', v'⟩ := hd
    have hk : k' ≠ k := h (k', v') (by simp)
    simp [dictAssign, hk]
    exact ih fun p hp => h p (List.mem_cons_of_mem _ hp)

/-! Lemmas about the `load_data` entry loop. -/

theorem loadEntries_none_iff (es : List (String × Json)) :
    ∀ acc : Store, (loadEntries acc es).2 = none ↔
      (es.all fun kv => isNumericPy kv.2) = true := by
  induction es with
  | nil => intro acc; simp [loadEntries]
  | cons hd tl ih =>
    intro acc
    obtain ⟨k, v⟩ := hd
    by_cases hv : isNumericPy v = true <;> simp [loadEntries, hv, ih]

theorem loadEntries_eq_foldl (es : List (String × Json))
    (h : (es.all fun kv => isNumericPy kv.2) = true) :
    ∀ acc : Store, loadEntries acc es =
      (es.foldl (fun a kv => dictAssign a kv.1 (jsonToFloat kv.2)) acc, none) := by
  induction es with
  | nil => intro acc; simp [loadEntries]
  | cons hd tl ih =>
    intro acc
    obtain ⟨k, v⟩ := hd
    simp only [List.all_cons, Bool.and_eq_true] at h
    simp [loadEntries, h.1, ih h.2]

theorem loadEntries_nonneg (es : List (String × Json)) :
    ∀ acc : Store, AllNonneg acc → (∀ kv ∈ es, 0 ≤ jsonToFloat kv.2) →
      AllNonneg (loadEntries acc es).1 := by
  induction es with
  | nil => intro acc hacc _; simpa [loadEntries] using hacc
  | cons hd tl ih =>
    intro acc hacc hes
    obtain ⟨k, v⟩ := hd
    by_cases hv : isNumericPy v = true
    · simp only [loadEntries, hv, if_true]
      refine ih _ ?_ fun kv hkv => hes kv (List.mem_cons_of_mem _ hkv)
      intro kv hkv
      rcases mem_dictAssign acc k (jsonToFloat v) kv hkv with h | h
      · subst h
        exact hes (k, v) (by simp)
      · exact hacc kv h
    · simpa [loadEntries, hv] using hacc

theorem foldl_dictAssign_fresh (s : Store) :
    ∀ acc : Store, (s.map Prod.fst).Nodup → (∀ p ∈ s, ∀ q ∈ acc, q.1 ≠ p.1) →
      s.foldl (fun a p => dictAssign a p.1 p.2) acc = acc ++ s := by
  induction s with
  | nil => intro acc _ _; simp
  | cons hd tl ih =>
    intro acc hnd hdisj
    obtain ⟨k, v⟩ := hd
    simp only [List.map_cons, List.nodup_cons] at hnd
    have hassign : dictAssign acc k v = acc ++ [(k, v)] :=
      dictAssign_of_notMem acc k v fun q hq => hdisj (k, v) (by simp) q hq
    have hdisj' : ∀ p ∈ tl, ∀ q ∈ acc ++ [(k, v)], q.1 ≠ p.1 := by
      intro p hp q hq
      rcases List.mem_append.mp hq with hq | hq
      · exact hdisj p (List.mem_cons_of_mem _ hp) q hq
      · simp at hq
        subst hq
        intro hkp
        apply hnd.1
        have : p.1 ∈ List.map Prod.fst tl := List.mem_map_of_mem Prod.fst hp
        simpa [← hkp] using this
    calc (((k, v) :: tl).foldl (fun a p => dictAssign a p.1 p.2) acc)
        = tl.foldl (fun a p => dictAssign a p.1 p.2) (acc ++ [(k, v)]) := by
          simp [hassign]
      _ = (acc ++ [(k, v)]) ++ tl := ih (acc ++ [(k, v)]) hnd.2 hdisj'
      _ = acc ++ (k, v) :: tl := by simp

example : add_item [] "a" 0 = ([("a", 0)], none) := by
  norm_num +decide [add_item, isBlank, dictGet, dictAssign]

example : add_item [("apple", 10)] "apple" 3 = ([("apple", 13)], none) := by
  norm_num +decide [add_item, isBlank, dictGet, dictAssign]

example : remove_item [("apple", 10)] "apple" 10 = ([], none) := by
  norm_num +decide [remove_item, isBlank, dictGet, dictDel]

example : load_data [("apple", 2)] (Json.obj [("b", Json.str "x")]) =
    ([], some (Err.invalidFormat "Inventory must map strings to numeric values.")) := by
  norm_num [load_data, loadEntries, isNumericPy]

example : check_low_items [("apple", 8), ("banana", 3)] 5 = Except.ok ["banana"] := by
  norm_num [check_low_items]

/-- C3: for every inventory state, every item name that is non-blank after
stripping and every quantity `qty ≥ 0`, `add_item` succeeds and a
subsequent `get_qty` on the same name returns the previously stored
quantity (0 when absent) plus `qty`. -/
theorem add_then_get_qty (s : Store) (item : String) (qty : ℚ)
    (hitem : isBlank item = false) (hqty : 0 ≤ qty) :
    (add_item s item qty).2 = none ∧
    get_qty (add_item s item qty).1 item =
      Except.ok ((dictGet s item).getD 0 + qty) := by
  have hlt : ¬ qty < 0 := not_lt.mpr hqty
  simp [add_item, hitem, hlt, get_qty, dictGet_assign_self]

/-- Witness for C3 at the store holding 10 apples: adding 3 succeeds and
`get_qty` returns 10 + 3. -/
theorem add_then_get_qty_witness :
    isBlank "apple" = false ∧ (0:ℚ) ≤ 3 ∧
    (add_item [("apple", 10)] "apple" 3).2 = none ∧
    get_qty (add_item [("apple", 10)] "apple" 3).1 "apple" =
      Except.ok ((dictGet [("apple", 10)] "apple").getD 0 + 3) :=
  ⟨by decide, by norm_num,
    add_then_get_qty [("apple", 10)] "apple" 3 (by decide) (by norm_num)⟩

/-- C4: removing `0 < qty ≤ q` of an item stored with quantity `q` (item
names of the data model are non-blank) succeeds; afterwards `get_qty`
returns `q - qty` when that is positive and raises `KeyError` (`NotFound`)
when it is exactly zero, the entry having been deleted. -/
theorem remove_partial_or_delete (s : Store) (item : String) (q qty : ℚ)
    (hitem : isBlank item = false) (hq : dictGet s item = some q)
    (h1 : 0 < qty) (h2 : qty ≤ q) :
    (remove_item s item qty).2 = none ∧
    (0 < q - qty → get_qty (remove_item s item qty).1 item = Except.ok (q - qty)) ∧
    (q - qty = 0 → get_qty (remove_item s item qty).1 item =
      Except.error (Err.notFound item)) := by
  have hpos : ¬ qty ≤ 0 := not_le.mpr h1
  have hnneg : ¬ (q - qty < 0) := not_lt.mpr (sub_nonneg.mpr h2)
  by_cases hz : q - qty = 0
  · simp [remove_item, hitem, hpos, hq, hnneg, hz, get_qty, dictGet_del_self]
  · simp [remove_item, hitem, hpos, hq, hnneg, hz, get_qty, dictGet_assign_self]

/-- Witness for C4: removing 2 of 10 apples leaves 8; removing 3 of 3
bananas deletes the entry and `get_qty` then reports `NotFound`. -/
theorem remove_partial_or_delete_witness :
    isBlank "banana" = false ∧ dictGet [("banana", 3)] "banana" = some 3 ∧
    (0:ℚ) < 3 ∧ (3:ℚ) ≤ 3 ∧
    (remove_item [("banana", 3)] "banana" 3).2 = none ∧
    (0 < (3:ℚ) - 3 → get_qty (remove_item [("banana", 3)] "banana" 3).1 "banana" =
      Except.ok (3 - 3)) ∧
    ((3:ℚ) - 3 = 0 → get_qty (remove_item [("banana", 3)] "banana" 3).1 "banana" =
      Except.error (Err.notFound "banana")) :=
  ⟨by decide, by norm_num [dictGet], by norm_num, by norm_num,
    remove_partial_or_delete [("banana", 3)] "banana" 3 3 (by decide)
      (by norm_num [dictGet]) (by norm_num) (by norm_num)⟩

/-- C5: removing more than the stored quantity fails with the
insufficient-stock error, which carries both the available quantity and the
requested amount, and the store is returned unchanged. -/
theorem remove_insufficient_reports_and_preserves (s : Store) (item : String)
    (q qty : ℚ) (hitem : isBlank item = false) (hq : dictGet s item = some q)
    (h0 : 0 ≤ q) (hgt : q < qty) :
    remove_item s item qty = (s, some (Err.insufficientStock q qty)) := by
  have hpos : ¬ qty ≤ 0 := not_le.mpr (lt_of_le_of_lt h0 hgt)
  have hneg : q - qty < 0 := sub_neg.mpr hgt
  simp [remove_item, hitem, hpos, hq, hneg]

/-- Witness for C5: removing 7 of 5 apples fails, reporting available 5 and
requested 7, with the store untouched. -/
theorem remove_insufficient_reports_and_preserves_witness :
    isBlank "apple" = false ∧ dictGet [("apple", 5)] "apple" = some 5 ∧
    (0:ℚ) ≤ 5 ∧ (5:ℚ) < 7 ∧
    remove_item [("apple", 5)] "apple" 7 =
      ([("apple", 5)], some (Err.insufficientStock 5 7)) :=
  ⟨by decide, by norm_num [dictGet], by norm_num, by norm_num,
    remove_insufficient_reports_and_preserves [("apple", 5)] "apple" 5 7
      (by decide) (by norm_num [dictGet]) (by norm_num) (by norm_num)⟩

/-- C8: loading a file whose parsed contents are not a JSON object fails
with the object-required error before the store is cleared, so the prior
in-memory inventory is returned exactly as it was. -/
theorem load_non_object_preserves_prior (prior : Store) (j : Json)
    (h : isObj j = false) :
    load_data prior j =
      (prior, some (Err.invalidFormat "Inventory file must contain a JSON object.")) := by
  cases j <;> simp_all [isObj, load_data]

/-- Witness for C8: loading a JSON array over a one-apple store fails and
keeps the store. -/
theorem load_non_object_preserves_prior_witness :
    isObj (Json.arr [Json.num 1]) = false ∧
    load_data [("apple", 2)] (Json.arr [Json.num 1]) =
      ([("apple", 2)], some (Err.invalidFormat "Inventory file must contain a JSON object.")) :=
  ⟨rfl, load_non_object_preserves_prior [("apple", 2)] (Json.arr [Json.num 1]) rfl⟩

/-- C9: with a non-negative threshold, `check_low_items` returns exactly the
names of the entries whose quantity is strictly below the threshold, as a
subsequence of the iteration order (empty when none match); a negative
threshold fails with the threshold error. -/
theorem check_low_items_spec (s : Store) (t : ℚ) :
    (0 ≤ t → check_low_items s t =
        Except.ok ((s.filter fun p => p.2 < t).map Prod.fst) ∧
      ((s.filter fun p => p.2 < t).map Prod.fst).Sublist (s.map Prod.fst) ∧
      (∀ kv ∈ s, kv.2 < t → kv.1 ∈ (s.filter fun p => p.2 < t).map Prod.fst) ∧
      (∀ x ∈ (s.filter fun p => p.2 < t).map Prod.fst,
        ∃ q, (x, q) ∈ s ∧ q < t) ∧
      ((∀ kv ∈ s, ¬ kv.2 < t) → (s.filter fun p => p.2 < t).map Prod.fst = [])) ∧
    (t < 0 → check_low_items s t =
      Except.error (Err.invalidArgument "Threshold must be a non-negative number.")) := by
  constructor
  · intro h0
    have hnlt : ¬ t < 0 := not_lt.mpr h0
    refine ⟨by simp [check_low_items, hnlt], List.Sublist.map _ (List.filter_sublist s), ?_, ?_, ?_⟩
    · intro kv hkv hlt
      exact List.mem_map_of_mem Prod.fst (List.mem_filter.mpr ⟨hkv, by simpa using hlt⟩)
    · intro x hx
      rcases List.mem_map.mp hx with ⟨⟨a, q⟩, hmem, hfst⟩
      rcases List.mem_filter.mp hmem with ⟨hmem', hq⟩
      exact ⟨q, by simpa [← hfst] using hmem', by simpa using hq⟩
    · intro hnone
      have : s.filter (fun p => p.2 < t) = [] := by
        rw [List.filter_eq_nil_iff]
        intro p hp
        simpa using hnone p hp
      simp [this]
  · intro hneg
    simp [check_low_items, hneg]

/-- Witness for C9 on `{"apple": 8, "banana": 3}` with threshold 5: the
result is exactly `["banana"]`, a subsequence of the iteration order. -/
theorem check_low_items_spec_witness :
    (0:ℚ) ≤ 5 ∧
    check_low_items [("apple", 8), ("banana", 3)] 5 =
      Except.ok ((([("apple", 8), ("banana", 3)] : Store).filter
        fun p => p.2 < 5).map Prod.fst) :=
  ⟨by norm_num, (check_low_items_spec [("apple", 8), ("banana", 3)] 5).1 (by norm_num) |>.1⟩

/-- C10: item names are stored verbatim.  Adding under one spelling never
changes what `get_qty` reports for a different spelling (in particular one
differing only in surrounding whitespace), and `get_qty` / `remove_item`
on a spelling that is absent from the store raise `KeyError`
(`NotFound`). -/
theorem names_stored_verbatim (s : Store) (a b : String) (qty q2 : ℚ)
    (hab : a ≠ b) :
    get_qty (add_item s a qty).1 b = get_qty s b ∧
    (dictGet s b = none → get_qty s b = Except.error (Err.notFound b)) ∧
    (dictGet s b = none → isBlank b = false → 0 < q2 →
      remove_item s b q2 = (s, some (Err.notFound b))) := by
  refine ⟨?_, ?_, ?_⟩
  · unfold add_item
    split_ifs <;> simp [get_qty, dictGet_assign_ne s a b _ hab]
  · intro h
    simp [get_qty, h]
  · intro h hb hq
    have : ¬ q2 ≤ 0 := not_le.mpr hq
    simp [remove_item, hb, this, h]

/-- Witness for C10: adding under the name with a leading space leaves the
trimmed spelling absent, so `get_qty` and `remove_item` on it still report
`NotFound`. -/
theorem names_stored_verbatim_witness :
    " apple" ≠ "apple" ∧
    (get_qty (add_item [] " apple" 3).1 "apple" = get_qty [] "apple" ∧
    (dictGet [] "apple" = none → get_qty [] "apple" = Except.error (Err.notFound "apple")) ∧
    (dictGet [] "apple" = none → isBlank "apple" = false → (0:ℚ) < 2 →
      remove_item [] "apple" 2 = ([], some (Err.notFound "apple")))) :=
  ⟨by decide, names_stored_verbatim [] " apple" "apple" 3 2 (by decide)⟩

/-- C6: saving any inventory state (keys unique, as in a dict) and loading
the saved JSON object into a fresh empty store succeeds and reproduces the
identical mapping. -/
theorem save_load_roundtrip (s : Store) (h : (s.map Prod.fst).Nodup) :
    load_data [] (save_data s) = (s, none) := by
  have hall : ((s.map fun p => (p.1, Json.num p.2)).all fun kv => isNumericPy kv.2) = true := by
    simp only [List.all_eq_true]
    intro kv hkv
    rcases List.mem_map.mp hkv with ⟨p, _, hp⟩
    simp [← hp, isNumericPy]
  have hload := loadEntries_eq_foldl _ hall []
  have hfoldl : (s.map fun p => (p.1, Json.num p.2)).foldl
      (fun a kv => dictAssign a kv.1 (jsonToFloat kv.2)) [] = s := by
    rw [List.foldl_map]
    have hfresh := foldl_dictAssign_fresh s [] h (by simp)
    simpa [jsonToFloat] using hfresh
  simp [load_data, save_data, hload, hfoldl]

/-- Witness for C6 on the two-entry store `{"apple": 8, "banana": 3}`. -/
theorem save_load_roundtrip_witness :
    (([("apple", 8), ("banana", 3)] : Store).map Prod.fst).Nodup ∧
    load_data [] (save_data [("apple", 8), ("banana", 3)]) =
      ([("apple", 8), ("banana", 3)], none) :=
  ⟨by decide, save_load_roundtrip [("apple", 8), ("banana", 3)] (by decide)⟩

/-- C7 counterexample: the file `{"a": true}` parses as a JSON object whose
value `true` is not numeric in the JSON sense, so the claim requires
`InvalidFormat`; but a Python bool passes `isinstance(value, (int, float))`,
so `load_data` succeeds and stores `{"a": 1.0}`. -/
theorem load_numeric_iff_fails_on_bool :
    specNumeric (Json.bool true) = false ∧
    (load_data [] (Json.obj [("a", Json.bool true)])).2 = none ∧
    (load_data [] (Json.obj [("a", Json.bool true)])).1 = [("a", 1)] := by
  refine ⟨rfl, ?_, ?_⟩ <;>
    norm_num [load_data, loadEntries, isNumericPy, jsonToFloat, dictAssign]

/-- C7 (amended): loading a parsed JSON object succeeds iff every value
passes the Python numeric check (JSON number or boolean; parsed object keys
are always strings, so the key check never fires), in which case the entry
loop rebuilds the store from empty with every value coerced to float; a
non-object parse fails with the object-required error, keeping the prior
store. -/
theorem load_format_characterization (prior : Store)
    (es : List (String × Json)) (j : Json) :
    ((load_data prior (Json.obj es)).2 = none ↔
      (es.all fun kv => isNumericPy kv.2) = true) ∧
    ((es.all fun kv => isNumericPy kv.2) = true →
      load_data prior (Json.obj es) =
        (es.foldl (fun a kv => dictAssign a kv.1 (jsonToFloat kv.2)) [], none)) ∧
    (isObj j = false → load_data prior j =
      (prior, some (Err.invalidFormat "Inventory file must contain a JSON object."))) := by
  refine ⟨?_, ?_, ?_⟩
  · simpa [load_data] using loadEntries_none_iff es []
  · intro h
    simp [load_data, loadEntries_eq_foldl es h []]
  · intro h
    cases j <;> simp_all [isObj, load_data]

/-- Witness for C7 (amended): `{"x": 4, "b": true}` loads successfully into
`{"x": 4.0, "b": 1.0}`, and the string file `"oops"` is rejected keeping
the prior store. -/
theorem load_format_characterization_witness :
    (([("x", Json.num 4), ("b", Json.bool true)].all fun kv => isNumericPy kv.2) = true) ∧
    load_data [("apple", 2)] (Json.obj [("x", Json.num 4), ("b", Json.bool true)]) =
      ([("x", Json.num 4), ("b", Json.bool true)].foldl
        (fun a kv => dictAssign a kv.1 (jsonToFloat kv.2)) [], none) ∧
    (isObj (Json.str "oops") = false ∧
      load_data [("apple", 2)] (Json.str "oops") =
        ([("apple", 2)], some (Err.invalidFormat "Inventory file must contain a JSON object."))) :=
  ⟨rfl,
    (load_format_characterization [("apple", 2)]
      [("x", Json.num 4), ("b", Json.bool true)] (Json.str "oops")).2.1 rfl,
    rfl,
    (load_format_characterization [("apple", 2)]
      [("x", Json.num 4), ("b", Json.bool true)] (Json.str "oops")).2.2 rfl⟩

/-- C2 (code bug): `load_data` clears the store before validating the
values, so a failed load of `{"b": "x"}` over the prior store
`{"apple": 2.0}` raises the values error yet leaves the store empty rather
than restoring the prior inventory. -/
theorem load_failure_clobbers_prior_state :
    (load_data [("apple", 2)] (Json.obj [("b", Json.str "x")])).2 =
      some (Err.invalidFormat "Inventory must map strings to numeric values.") ∧
    (load_data [("apple", 2)] (Json.obj [("b", Json.str "x")])).1 = [] ∧
    (load_data [("apple", 2)] (Json.obj [("b", Json.str "x")])).1 ≠
      [("apple", 2)] := by
  refine ⟨rfl, rfl, ?_⟩
  norm_num [load_data, loadEntries, isNumericPy]

/-- C1 counterexample: `add_item` accepts `qty = 0`, so the single
successful call `add_item [] "a" 0` reaches the store `{"a": 0.0}`, which
holds a zero-valued entry — the strict-positivity invariant fails on a
reachable state. -/
theorem reachable_pos_invariant_fails :
    Reachable [("a", 0)] ∧ allPosB [("a", 0)] = false := by
  constructor
  · exact ReachableP.addStep [] [("a", 0)] "a" 0 ReachableP.empty
      (by norm_num +decide [add_item, isBlank, dictGet, dictAssign])
  · norm_num [allPosB]

/-- C1 (amended): every state reachable from the empty store by successful
`add_item`, `remove_item` and `load_data` calls whose loaded files carry
only non-negatively coerced values has all quantities non-negative (zero
entries may persist: `add_item` with `qty = 0` and `load_data` of a zero
value create them, though `remove_item` still deletes an entry reaching
exactly zero). -/
theorem reachable_nonneg_invariant (s : Store)
    (h : ReachableP NonnegFile s) : AllNonneg s := by
  induction h with
  | empty => intro kv hkv; simp at hkv
  | addStep s s' item qty _ heq ih =>
    by_cases hb : isBlank item = true
    · simp [add_item, hb] at heq
    · by_cases hq : qty < 0
      · simp [add_item, hb, hq] at heq
      · simp only [add_item, hb, Bool.false_eq_true, if_false, hq,
          Prod.mk.injEq] at heq
        intro kv hkv
        rcases mem_dictAssign s item _ kv (heq.1 ▸ hkv) with h' | h'
        · subst h'
          have hg : 0 ≤ (dictGet s item).getD 0 := by
            cases hget : dictGet s item with
            | none => simp
            | some q => simpa using ih (item, q) (dictGet_mem s item q hget)
          have hq' : 0 ≤ qty := not_lt.mp hq
          simpa using add_nonneg hg hq'
        · exact ih kv h'
  | removeStep s s' item qty _ heq ih =>
    by_cases hb : isBlank item = true
    · simp [remove_item, hb] at heq
    · by_cases hq : qty ≤ 0
      · simp [remove_item, hb, hq] at heq
      · cases hget : dictGet s item with
        | none => simp [remove_item, hb, hq, hget] at heq
        | some q =>
          by_cases hneg : q - qty < 0
          · simp [remove_item, hb, hq, hget, hneg] at heq
          · by_cases hz : q - qty = 0
            · simp only [remove_item, hb, Bool.false_eq_true, if_false, hq,
                hget, hneg, hz, lt_self_iff_false, if_true, Prod.mk.injEq] at heq
              intro kv hkv
              exact ih kv (mem_dictDel s item kv (heq.1 ▸ hkv))
            · simp only [remove_item, hb, Bool.false_eq_true, if_false, hq,
                hget, hneg, hz, if_false, Prod.mk.injEq] at heq
              intro kv hkv
              rcases mem_dictAssign s item _ kv (heq.1 ▸ hkv) with h' | h'
              · subst h'
                simpa using not_lt.mp hneg
              · exact ih kv h'
  | loadStep s s' j _ hP heq ih =>
    cases j with
    | obj es =>
      simp only [load_data, Prod.mk.injEq] at heq
      have hnn : AllNonneg (loadEntries [] es).1 :=
        loadEntries_nonneg es [] (by intro kv hkv; simp at hkv)
          (fun kv hkv => hP es rfl kv hkv)
      rw [heq] at hnn
      exact hnn
    | null => simp [load_data] at heq
    | bool b => simp [load_data] at heq
    | num q => simp [load_data] at heq
    | str t => simp [load_data] at heq
    | arr elems => simp [load_data] at heq

/-- Witness for C1 (amended): the store reached by adding 2 apples has all
quantities non-negative. -/
theorem reachable_nonneg_invariant_witness : AllNonneg [("apple", 2)] :=
  reachable_nonneg_invariant [("apple", 2)]
    (ReachableP.addStep [] [("apple", 2)] "apple" 2 ReachableP.empty
      (by norm_num +decide [add_item, isBlank, dictGet, dictAssign]))

end Inventory
